import Mathlib

/-!
# Billboarded label rendering (`src/main.cpp`)

A shallow embedding of the label pipeline of `main.cpp`:

* `makeLabelVertices` (C++, lines 207-220): packs one record of five floats per
  character of a label;
* the vertex fetch set up by `glVertexAttribPointer` (lines 285-290) and the vertex
  shader `vsrc` (lines 98-111);
* the geometry shader `gsrc` (lines 114-169), which expands one point into a
  camera-facing textured quad.

Number model.  The claims are about exact arithmetic, so `float` is an arbitrary
linearly ordered field `K` with a floor function (`ℚ` for evaluation, `ℝ` for real
distances); the conversions `float(·)` and `int(·)` are the cast `ℤ → K` and
truncation toward zero.  `int` is a 32-bit two's-complement integer: the
conversion `(int)L.text.size()` wraps (`castInt`), the other `int` values of the
program stay in range for the inputs considered and are plain integers.  Rounding
is outside this model, and `x / 0` is `0` as in any Lean field, so nothing is
claimed about a zero distance.
-/

namespace LabelBillboard

/-! ## GLSL / glm vector and matrix types -/

/-- GLSL `vec2`. -/
@[ext] structure Vec2 (K : Type) where
  x : K
  y : K
deriving DecidableEq, Repr

/-- GLSL `vec3` / `glm::vec3`. -/
@[ext] structure Vec3 (K : Type) where
  x : K
  y : K
  z : K
deriving DecidableEq, Repr

/-- GLSL `vec4`. -/
@[ext] structure Vec4 (K : Type) where
  x : K
  y : K
  z : K
  w : K
deriving DecidableEq, Repr

/-- GLSL `mat4`, indexed as in GLSL: `m c r` is `m[c][r]`, column `c`, row `r`. -/
abbrev Mat4 (K : Type) := Fin 4 → Fin 4 → K

section Ops

variable {K : Type} [LinearOrderedField K]

instance : Add (Vec2 K) := ⟨fun a b => ⟨a.x + b.x, a.y + b.y⟩⟩

instance : Add (Vec3 K) := ⟨fun a b => ⟨a.x + b.x, a.y + b.y, a.z + b.z⟩⟩

instance : Sub (Vec3 K) := ⟨fun a b => ⟨a.x - b.x, a.y - b.y, a.z - b.z⟩⟩

/-- GLSL `vec3 * float`, componentwise. -/
instance : HMul (Vec3 K) K (Vec3 K) := ⟨fun a s => ⟨a.x * s, a.y * s, a.z * s⟩⟩

/-- GLSL `dot` on `vec3`. -/
def dot (a b : Vec3 K) : K := a.x * b.x + a.y * b.y + a.z * b.z

/-- GLSL `length` on `vec3`: the square root of the sum of squares.  The square root
is a built-in of the shading language and is taken as a parameter. -/
def length (sqrt : K → K) (v : Vec3 K) : K := sqrt (v.x * v.x + v.y * v.y + v.z * v.z)

/-- GLSL `clamp(x, minVal, maxVal)`, defined by the language as
`min(max(x, minVal), maxVal)`. -/
def clamp (x minVal maxVal : K) : K := min (max x minVal) maxVal

/-- GLSL swizzle `.xyz`. -/
def Vec4.xyz (p : Vec4 K) : Vec3 K := ⟨p.x, p.y, p.z⟩

/-- GLSL constructor `vec4(v, w)`. -/
def vec4 (v : Vec3 K) (w : K) : Vec4 K := ⟨v.x, v.y, v.z, w⟩

/-- GLSL `mat4 * vec4`: component `r` of the result is `Σ c, m[c][r] * p[c]`. -/
def Mat4.mulVec (m : Mat4 K) (p : Vec4 K) : Vec4 K :=
  ⟨m 0 0 * p.x + m 1 0 * p.y + m 2 0 * p.z + m 3 0 * p.w,
   m 0 1 * p.x + m 1 1 * p.y + m 2 1 * p.z + m 3 1 * p.w,
   m 0 2 * p.x + m 1 2 * p.y + m 2 2 * p.z + m 3 2 * p.w,
   m 0 3 * p.x + m 1 3 * p.y + m 2 3 * p.z + m 3 3 * p.w⟩

/-- GLSL `mat4 * mat4`: `(a * b)[c][r] = Σ k, a[k][r] * b[c][k]`. -/
def Mat4.mul (a b : Mat4 K) : Mat4 K :=
  fun c r => a 0 r * b c 0 + a 1 r * b c 1 + a 2 r * b c 2 + a 3 r * b c 3

end Ops

/-- GLSL `int(x)` on a float: conversion by truncation toward zero. -/
def glslInt {K : Type} [LinearOrderedField K] [FloorRing K] (x : K) : Int :=
  if 0 ≤ x then ⌊x⌋ else ⌈x⌉

/-! ## Label layout (`makeLabelVertices`) -/

/-- `struct Label`: the text, as the sequence of its `char` values, and the centre
position above the model. -/
structure Label (K : Type) where
  text : List Int
  center : Vec3 K

/-- The `char` values of an ASCII string literal. -/
def asciiText (s : String) : List Int := s.toList.map (fun c => (c.toNat : Int))

/-- `std::vector::push_back`. -/
def push_back {α : Type} (v : List α) (a : α) : List α := v ++ [a]

/-- The body of the `for` loop of `makeLabelVertices` at index `i`: five
`push_back`s onto `v`. -/
def makeLabelVerticesBody {K : Type} [LinearOrderedField K]
    (L : Label K) (spacing : K) (n : Int) (v : List K) (i : Nat) : List K :=
  let offsetUnits : K := (((i : Int) : K) - ((n - 1 : Int) : K) / 2.0) * spacing
  let v := push_back v L.center.x
  let v := push_back v L.center.y
  let v := push_back v L.center.z
  let v := push_back v ((L.text.getD i 0 : Int) : K)
  let v := push_back v offsetUnits
  v

/-- The conversion `(int)` of a `size_t` value: reduction modulo `2^32` into the
range `[-2^31, 2^31)` of a 32-bit `int`. -/
def castInt (m : Nat) : Int := ((m : Int) + 2147483648) % 4294967296 - 2147483648

/-- `makeLabelVertices`: per character `center.x, center.y, center.z, charCode,
offsetX`.  The loop `for (int i = 0; i < n; ++i)` is a left fold over `0, …, n-1`
(over nothing when `n ≤ 0`). -/
def makeLabelVertices {K : Type} [LinearOrderedField K] (L : Label K) : List K :=
  let v : List K := []
  let spacing : K := 0.6
  let n : Int := castInt L.text.length
  (List.range n.toNat).foldl (makeLabelVerticesBody L spacing n) v

/-! ## Vertex fetch and vertex shader -/

/-- Inputs of the vertex shader `vsrc`: `aCenter`, `aChar`, `aOffset`. -/
structure VSIn (K : Type) where
  aCenter : Vec3 K
  aChar : K
  aOffset : K

/-- What the vertex shader hands to the geometry shader: `gl_Position`, `ch`, `off`. -/
structure GSIn (K : Type) where
  gl_Position : Vec4 K
  ch : K
  off : K

/-- Vertex fetch of point `k` from the label buffer, as laid out by the three
`glVertexAttribPointer` calls: stride 5 floats, `aCenter` at float offset 0 (three
components), `aChar` at float offset 3, `aOffset` at float offset 4. -/
def fetchVertex {K : Type} [LinearOrderedField K] (verts : List K) (k : Nat) : VSIn K :=
  { aCenter := ⟨verts.getD (5 * k + 0) 0, verts.getD (5 * k + 1) 0, verts.getD (5 * k + 2) 0⟩
    aChar := verts.getD (5 * k + 3) 0
    aOffset := verts.getD (5 * k + 4) 0 }

/-- The number of points drawn: `verts.size() / 5`. -/
def pointCount {K : Type} (verts : List K) : Nat := verts.length / 5

/-- The vertex shader `vsrc`. -/
def vsMain {K : Type} [LinearOrderedField K] (a : VSIn K) : GSIn K :=
  { gl_Position := vec4 a.aCenter 1.0
    ch := a.aChar
    off := a.aOffset }

/-! ## Geometry shader -/

/-- The uniforms of the geometry shader `gsrc`. -/
structure Uniforms (K : Type) where
  view : Mat4 K
  projection : Mat4 K
  size : K
  cols : K
  rows : K
  camPos : Vec3 K

/-- One emitted vertex: `gl_Position` and the output `uv` at `EmitVertex()`. -/
structure Vertex (K : Type) where
  gl_Position : Vec4 K
  uv : Vec2 K

/-- A run of `main()` of the geometry shader: the values of its local variables at
the end of the body (`right`, `up` after `*= scale`), the four values taken by `p`
in order, and the emitted vertices in order. -/
structure GSRun (K : Type) where
  right : Vec3 K
  up : Vec3 K
  center : Vec3 K
  offset : K
  dist : K
  scale : K
  i : Int
  col : Int
  row : Int
  base : Vec2 K
  step : Vec2 K
  shift : Vec3 K
  ps : List (Vec4 K)
  emitted : List (Vertex K)

/-- The body of `main()` of the geometry shader `gsrc`, statement by statement.
Integer `%` and `/` truncate (`Int.tmod`, `Int.tdiv`). -/
def gsRun {K : Type} [LinearOrderedField K] [FloorRing K]
    (sqrt : K → K) (U : Uniforms K) (gin : GSIn K) : GSRun K :=
  let right : Vec3 K := (⟨U.view 0 0, U.view 1 0, U.view 2 0⟩ : Vec3 K) * U.size
  let up : Vec3 K := (⟨U.view 0 1, U.view 1 1, U.view 2 1⟩ : Vec3 K) * U.size
  let center : Vec3 K := gin.gl_Position.xyz
  let offset : K := gin.off
  let dist : K := length sqrt (U.camPos - center)
  let scale : K := clamp (5.0 / dist) 0.45 1.3
  let right := right * scale
  let up := up * scale
  let i : Int := glslInt gin.ch - 32
  let col : Int := i.tmod (glslInt U.cols)
  let row : Int := i.tdiv (glslInt U.cols)
  let base : Vec2 K := ⟨(col : K) / U.cols, 1.0 - ((row + 1 : Int) : K) / U.rows⟩
  let step : Vec2 K := ⟨1.0 / U.cols, 1.0 / U.rows⟩
  let shift : Vec3 K := right * offset
  let pv : Mat4 K := U.projection.mul U.view
  let p1 : Vec4 K := vec4 (center + shift - right * (0.5 : K) - up * (0.5 : K)) 1.0
  let e1 : Vertex K := ⟨pv.mulVec p1, base⟩
  let p2 : Vec4 K := vec4 (center + shift + right * (0.5 : K) - up * (0.5 : K)) 1.0
  let e2 : Vertex K := ⟨pv.mulVec p2, base + ⟨step.x, 0⟩⟩
  let p3 : Vec4 K := vec4 (center + shift - right * (0.5 : K) + up * (0.5 : K)) 1.0
  let e3 : Vertex K := ⟨pv.mulVec p3, base + ⟨0, step.y⟩⟩
  let p4 : Vec4 K := vec4 (center + shift + right * (0.5 : K) + up * (0.5 : K)) 1.0
  let e4 : Vertex K := ⟨pv.mulVec p4, base + step⟩
  { right := right, up := up, center := center, offset := offset, dist := dist,
    scale := scale, i := i, col := col, row := row, base := base, step := step,
    shift := shift, ps := [p1, p2, p3, p4], emitted := [e1, e2, e3, e4] }

/-- The geometry shader: the vertices emitted for one input point. -/
def gsMain {K : Type} [LinearOrderedField K] [FloorRing K]
    (sqrt : K → K) (U : Uniforms K) (gin : GSIn K) : List (Vertex K) :=
  (gsRun sqrt U gin).emitted

/-- The geometry-shader run for point `k` of a label buffer drawn by
`glDrawArrays(GL_POINTS, …)`: vertex fetch, vertex shader, geometry shader. -/
def drawPoint {K : Type} [LinearOrderedField K] [FloorRing K]
    (sqrt : K → K) (U : Uniforms K) (verts : List K) (k : Nat) : GSRun K :=
  gsRun sqrt U (vsMain (fetchVertex verts k))

/-! ## Specification vocabulary -/

section SpecVocabulary

variable {K : Type} [LinearOrderedField K]

/-- The five floats of the record of character `i` of a label, as the layout
contract states them. -/
def labelRecord (L : Label K) (i : Nat) : List K :=
  [L.center.x, L.center.y, L.center.z, ((L.text.getD i 0 : Int) : K),
    ((i : K) - ((L.text.length : K) - 1) / 2) * 0.6]

/-- The offsets (attribute `aOffset`) of all the points drawn from the buffer of a
label, in draw order. -/
def labelOffsets (L : Label K) : List K :=
  (List.range (pointCount (makeLabelVertices L))).map
    (fun k => (fetchVertex (makeLabelVertices L) k).aOffset)

/-- Column `c` of the 3x3 rotation part of a view transform. -/
def rotationColumn (view : Mat4 K) (c : Fin 4) : Vec3 K := ⟨view c 0, view c 1, view c 2⟩

/-- The 3x3 rotation part of a view transform is orthonormal: its three columns are
unit vectors and pairwise orthogonal (for a square matrix this is the same as its
rows being orthonormal). -/
def rotationOrthonormal (view : Mat4 K) : Prop :=
  dot (rotationColumn view 0) (rotationColumn view 0) = 1 ∧
  dot (rotationColumn view 1) (rotationColumn view 1) = 1 ∧
  dot (rotationColumn view 2) (rotationColumn view 2) = 1 ∧
  dot (rotationColumn view 0) (rotationColumn view 1) = 0 ∧
  dot (rotationColumn view 0) (rotationColumn view 2) = 0 ∧
  dot (rotationColumn view 1) (rotationColumn view 2) = 0

instance (view : Mat4 K) : Decidable (rotationOrthonormal view) := by
  unfold rotationOrthonormal; infer_instance

end SpecVocabulary

/-! ## Concrete scene data (from `main` and `Camera`) -/

/-- A square root on `ℚ`, exact on squares of rationals. -/
def ratSqrt (q : ℚ) : ℚ := (Nat.sqrt q.num.toNat : ℚ) / (Nat.sqrt q.den : ℚ)

/-- The identity transform. -/
def identityMat : Mat4 ℚ := ![![1, 0, 0, 0], ![0, 1, 0, 0], ![0, 0, 1, 0], ![0, 0, 0, 1]]

/-- The view transform of the initial camera (`pos = (0, 0, 5)`, `yaw = -90`,
`pitch = 0`): `glm::lookAt` towards `-z`, i.e. a translation by `-pos`, listed by
columns. -/
def cameraView : Mat4 ℚ := ![![1, 0, 0, 0], ![0, 1, 0, 0], ![0, 0, 1, 0], ![0, 0, -5, 1]]

/-- The font uniforms set in `main` (`size = 0.18`, `cols = 16`, `rows = 6`) with the
initial camera; the projection is replaced by the identity. -/
def sceneUniforms : Uniforms ℚ :=
  { view := cameraView, projection := identityMat, size := 0.18, cols := 16.0, rows := 6.0,
    camPos := ⟨0, 0, 5⟩ }

/-- A label whose text has `2^31` characters `A`, anchored at `(0, 1, 0)`. -/
def labelLong : Label ℚ := { text := List.replicate 2147483648 65, center := ⟨0, 1, 0⟩ }

/-- The label "AB" anchored at `(0, 1, 0)`. -/
def labelAB : Label ℚ := { text := asciiText "AB", center := ⟨0, 1, 0⟩ }

/-- A geometry-shader input: character `A` at the origin, offset `0`. -/
def glyphA : GSIn ℚ := { gl_Position := ⟨0, 0, 0, 1⟩, ch := 65, off := 0 }

/-- A geometry-shader input: character `B` at `(0, 0, -5)`, offset `0`. -/
def glyphB : GSIn ℚ := { gl_Position := ⟨0, 0, -5, 1⟩, ch := 66, off := 0 }


/-! # Theorems -/

/-! ## Vector and matrix algebra -/

section VectorAlgebra

variable {K : Type} [LinearOrderedField K]

theorem vec3_add_def (a b : Vec3 K) : a + b = ⟨a.x + b.x, a.y + b.y, a.z + b.z⟩ := rfl

theorem vec3_sub_def (a b : Vec3 K) : a - b = ⟨a.x - b.x, a.y - b.y, a.z - b.z⟩ := rfl

theorem vec3_mul_def (a : Vec3 K) (s : K) : a * s = ⟨a.x * s, a.y * s, a.z * s⟩ := rfl

theorem vec2_add_def (a b : Vec2 K) : a + b = ⟨a.x + b.x, a.y + b.y⟩ := rfl

theorem mat4_mul_mulVec (a b : Mat4 K) (p : Vec4 K) :
    (a.mul b).mulVec p = a.mulVec (b.mulVec p) := by
  simp only [Mat4.mul, Mat4.mulVec, Vec4.mk.injEq]
  refine ⟨?_, ?_, ?_, ?_⟩ <;> ring

theorem rotationOrthonormal_rows (view : Mat4 K) (h : rotationOrthonormal view) :
    view 0 0 * view 0 1 + view 1 0 * view 1 1 + view 2 0 * view 2 1 = 0 ∧
    view 0 0 * view 0 2 + view 1 0 * view 1 2 + view 2 0 * view 2 2 = 0 ∧
    view 0 1 * view 0 2 + view 1 1 * view 1 2 + view 2 1 * view 2 2 = 0 := by
  obtain ⟨h00, h11, h22, h01, h02, h12⟩ := h
  simp only [dot, rotationColumn] at h00 h11 h22 h01 h02 h12
  let f : Fin 3 → Fin 4 := ![0, 1, 2]
  let M : Matrix (Fin 3) (Fin 3) K := Matrix.of (fun r c => view (f c) (f r))
  have h1 : M.transpose * M = 1 := by
    ext a b
    fin_cases a <;> fin_cases b <;>
      simp [M, f, Matrix.mul_apply, Fin.sum_univ_three] <;> linarith
  have h2 : M * M.transpose = 1 := Matrix.mul_eq_one_comm.mp h1
  have e01 := congrFun (congrFun h2 0) 1
  have e02 := congrFun (congrFun h2 0) 2
  have e12 := congrFun (congrFun h2 1) 2
  simp [M, f, Matrix.mul_apply, Fin.sum_univ_three] at e01 e02 e12
  exact ⟨e01, e02, e12⟩

end VectorAlgebra

theorem xyz_vec4 {K : Type} (v : Vec3 K) (w : K) : (vec4 v w).xyz = v := rfl

/-! ## Label layout -/


section Layout

variable {K : Type} [LinearOrderedField K]

theorem foldl_body_eq (L : Label K) (m : Nat) (v : List K) :
    (List.range m).foldl (makeLabelVerticesBody L 0.6 (L.text.length : Int)) v
      = v ++ (List.range m).flatMap (labelRecord L) := by
  induction m with
  | zero => simp
  | succ m ih =>
    rw [List.range_succ, List.foldl_append, ih]
    simp [makeLabelVerticesBody, push_back, labelRecord, List.flatMap_append]
    left; norm_num

theorem castInt_of_lt (m : Nat) (h : m < 2147483648) : castInt m = m := by
  unfold castInt
  omega

theorem makeLabelVertices_eq_bind (L : Label K) (hn : L.text.length < 2147483648) :
    makeLabelVertices L = (List.range L.text.length).flatMap (labelRecord L) := by
  simp [makeLabelVertices, castInt_of_lt _ hn, foldl_body_eq]

theorem length_bind_five {α : Type} (f : Nat → List α) (hf : ∀ i, (f i).length = 5) (m : Nat) :
    ((List.range m).flatMap f).length = 5 * m := by
  induction m with
  | zero => simp
  | succ m ih => rw [List.range_succ, List.flatMap_append, List.length_append, ih]; simp [hf]; ring

theorem drop_take_bind_five {α : Type} (f : Nat → List α) (hf : ∀ i, (f i).length = 5)
    (m i : Nat) (hi : i < m) :
    (((List.range m).flatMap f).drop (5 * i)).take 5 = f i := by
  induction m with
  | zero => omega
  | succ m ih =>
    have hlen := length_bind_five f hf m
    rw [List.range_succ, List.flatMap_append]
    rcases Nat.lt_succ_iff_lt_or_eq.mp hi with h | h
    · rw [List.drop_append_of_le_length (by omega), List.take_append_of_le_length]
      · exact ih h
      · rw [List.length_drop]; omega
    · subst h
      rw [← hlen, List.drop_left]
      simp [← hf i]

theorem length_makeLabelVertices (L : Label K) (hn : L.text.length < 2147483648) :
    (makeLabelVertices L).length = 5 * L.text.length := by
  rw [makeLabelVertices_eq_bind L hn]
  exact length_bind_five (labelRecord L) (fun _ => rfl) _

theorem getD_of_drop_take {α : Type} (v r : List α) (a j : Nat) (d : α)
    (h : (v.drop a).take 5 = r) (hj : j < 5) : v.getD (a + j) d = r.getD j d := by
  subst h
  simp [List.getD_eq_getElem?_getD, List.getElem?_take, hj, List.getElem?_drop]

/-- The vertex fetched for point `i` of a label buffer is the record of character `i`. -/
theorem fetchVertex_makeLabelVertices (L : Label K) (hn : L.text.length < 2147483648)
    (i : Nat) (hi : i < L.text.length) :
    fetchVertex (makeLabelVertices L) i =
      { aCenter := L.center
        aChar := ((L.text.getD i 0 : Int) : K)
        aOffset := ((i : K) - ((L.text.length : K) - 1) / 2) * 0.6 } := by
  have h := drop_take_bind_five (labelRecord L) (fun _ => rfl) L.text.length i hi
  rw [← makeLabelVertices_eq_bind L hn] at h
  have g := fun j hj => getD_of_drop_take (makeLabelVertices L) _ (5 * i) j (0 : K) h hj
  simp only [fetchVertex, g 0 (by omega), g 1 (by omega), g 2 (by omega), g 3 (by omega),
    g 4 (by omega)]
  simp [labelRecord]

theorem getElem?_of_drop_take {α : Type} (v r : List α) (a j : Nat)
    (h : (v.drop a).take 5 = r) (hj : j < 5) : v[a + j]? = r[j]? := by
  subst h
  simp [List.getElem?_take, hj, List.getElem?_drop]

theorem asciiText_AB : asciiText "AB" = [65, 66] := by decide

theorem asciiText_ABC : asciiText "ABC" = [65, 66, 67] := by decide

end Layout

section LayoutClaims

variable {K : Type} [LinearOrderedField K]

/-- C1 (amended): for every text of length `n < 2^31` and every anchor,
`makeLabelVertices` returns exactly `5 * n` numbers, and for every `i < n` the
`i`-th group of five is
`(anchor.x, anchor.y, anchor.z, code of text[i], (i - (n - 1) / 2) * 0.6)`, in the
order of the text; the empty text gives the empty sequence, "AB" gives the offsets
`[-0.3, 0.3]` and "ABC" gives the offsets `[-0.6, 0, 0.6]`. -/
theorem makeLabelVertices_records (L : Label K) (hn : L.text.length < 2147483648) :
    (makeLabelVertices L).length = 5 * L.text.length ∧
    (∀ (i : Nat) (h : i < L.text.length),
      ((makeLabelVertices L).drop (5 * i)).take 5 =
        [L.center.x, L.center.y, L.center.z, ((L.text[i] : Int) : K),
          ((i : K) - ((L.text.length : K) - 1) / 2) * 0.6]) ∧
    (L.text = [] → makeLabelVertices L = []) ∧
    (∀ c : Vec3 K, labelOffsets ⟨asciiText "AB", c⟩ = [-0.3, 0.3]) ∧
    (∀ c : Vec3 K, labelOffsets ⟨asciiText "ABC", c⟩ = [-0.6, 0, 0.6]) := by
  refine ⟨?_, ?_, ?_, ?_, ?_⟩
  · exact length_makeLabelVertices L hn
  · intro i h
    have := drop_take_bind_five (labelRecord L) (fun _ => rfl) L.text.length i h
    rw [← makeLabelVertices_eq_bind L hn] at this
    rw [this]
    simp [labelRecord, List.getD_eq_getElem?_getD, List.getElem?_eq_getElem h]
  · intro h
    simp [makeLabelVertices, castInt, h]
  · intro c
    have e : castInt 2 = 2 := by decide
    simp [labelOffsets, pointCount, asciiText_AB, makeLabelVertices, makeLabelVerticesBody,
      push_back, fetchVertex, List.range_succ, e]
    norm_num
  · intro c
    have e : castInt 3 = 3 := by decide
    simp [labelOffsets, pointCount, asciiText_ABC, makeLabelVertices, makeLabelVerticesBody,
      push_back, fetchVertex, List.range_succ, e]
    norm_num

/-- C2: for every text of length `n < 2^31`, the buffer of `makeLabelVertices` holds
`n` records, hence `n` offsets (the float at index `5 * i + 4` of the buffer, the
attribute `aOffset` of point `i`); offset `i` is `(i - (n - 1) / 2) * 0.6`, the
offsets satisfy `offset[i] + offset[n-1-i] = 0` for every `i < n` (the symmetric
pairs cancel, for even and odd `n` alike), and the sum of all `n` offsets is `0`
(in particular when `n` is odd). -/
theorem makeLabelVertices_centered (L : Label K) (hn : L.text.length < 2147483648) :
    (makeLabelVertices L).length = 5 * L.text.length ∧
    (labelOffsets L).length = L.text.length ∧
    (∀ i : Nat, i < L.text.length → ∃ a b : K,
      (makeLabelVertices L)[5 * i + 4]? = some a ∧
      (makeLabelVertices L)[5 * (L.text.length - 1 - i) + 4]? = some b ∧
      (labelOffsets L)[i]? = some a ∧
      (labelOffsets L)[L.text.length - 1 - i]? = some b ∧
      a = ((i : K) - ((L.text.length : K) - 1) / 2) * 0.6 ∧
      a + b = 0) ∧
    (labelOffsets L).sum = 0 := by
  have hcount : pointCount (makeLabelVertices L) = L.text.length := by
    simp [pointCount, length_makeLabelVertices L hn]
  have hbuf : ∀ i : Nat, i < L.text.length →
      (makeLabelVertices L)[5 * i + 4]?
        = some (((i : K) - ((L.text.length : K) - 1) / 2) * 0.6) := by
    intro i hi
    have h := drop_take_bind_five (labelRecord L) (fun _ => rfl) L.text.length i hi
    rw [← makeLabelVertices_eq_bind L hn] at h
    rw [getElem?_of_drop_take (makeLabelVertices L) _ (5 * i) 4 h (by omega)]
    simp [labelRecord]
  have hoff : ∀ i : Nat, i < L.text.length →
      (labelOffsets L)[i]? = some (((i : K) - ((L.text.length : K) - 1) / 2) * 0.6) := by
    intro i hi
    rw [labelOffsets, hcount, List.getElem?_map, List.getElem?_range hi, Option.map_some',
      fetchVertex_makeLabelVertices L hn i hi]
  have pair : ∀ i : Nat, i < L.text.length →
      ((i : K) - ((L.text.length : K) - 1) / 2) * 0.6
        + (((L.text.length - 1 - i : Nat) : K) - ((L.text.length : K) - 1) / 2) * 0.6 = 0 := by
    intro i hi
    have : ((L.text.length - 1 - i : Nat) : K) = (L.text.length : K) - 1 - (i : K) := by
      rw [Nat.sub_sub, Nat.cast_sub (by omega)]; push_cast; ring
    rw [this]
    ring
  refine ⟨length_makeLabelVertices L hn, by simp [labelOffsets, hcount], ?_, ?_⟩
  · intro i hi
    exact ⟨_, _, hbuf i hi, hbuf _ (by omega), hoff i hi, hoff _ (by omega), rfl, pair i hi⟩
  set f : Nat → K := fun k => ((k : K) - ((L.text.length : K) - 1) / 2) * 0.6 with hf
  have hmap : labelOffsets L = List.map f (List.range L.text.length) := by
    rw [labelOffsets, hcount]
    apply List.map_congr_left
    intro k hk
    rw [fetchVertex_makeLabelVertices L hn k (List.mem_range.mp hk)]
  have hsum : (List.map f (List.range L.text.length)).sum
      = ∑ k in Finset.range L.text.length, f k := by
    simp [Finset.sum, Finset.range, Multiset.range]
  rw [hmap, hsum]
  have h2 : (∑ k in Finset.range L.text.length, f k)
      + ∑ k in Finset.range L.text.length, f k = 0 := by
    nth_rewrite 2 [← Finset.sum_range_reflect]
    rw [← Finset.sum_add_distrib]
    exact Finset.sum_eq_zero (fun k hk => pair k (Finset.mem_range.mp hk))
  linarith

end LayoutClaims

/-! ## Glyph atlas -/

section Atlas

variable {K : Type} [LinearOrderedField K] [FloorRing K]

theorem glslInt_intCast (z : Int) : glslInt (z : K) = z := by
  unfold glslInt
  split_ifs <;> simp

theorem glslInt_natCast (n : Nat) : glslInt (n : K) = n := by
  have := glslInt_intCast (K := K) (n : Int)
  simpa using this

theorem gsRun_i (sqrt : K → K) (U : Uniforms K) (gin : GSIn K) (code : Int)
    (hch : gin.ch = code) : (gsRun sqrt U gin).i = code - 32 := by
  simp [gsRun, hch, glslInt_intCast]

theorem gsRun_col (sqrt : K → K) (U : Uniforms K) (gin : GSIn K) (cols : Nat) (code : Int)
    (hU : U.cols = cols) (hch : gin.ch = code) (h32 : 32 ≤ code) :
    (gsRun sqrt U gin).col = (code - 32) % cols := by
  simp only [gsRun, hch, hU, glslInt_intCast, glslInt_natCast]
  exact Int.tmod_eq_emod (by omega) (by omega)

theorem gsRun_row (sqrt : K → K) (U : Uniforms K) (gin : GSIn K) (cols : Nat) (code : Int)
    (hU : U.cols = cols) (hch : gin.ch = code) (h32 : 32 ≤ code) :
    (gsRun sqrt U gin).row = (code - 32) / cols := by
  simp only [gsRun, hch, hU, glslInt_intCast, glslInt_natCast]
  exact Int.tdiv_eq_ediv (by omega) (by omega)

theorem gsRun_base (sqrt : K → K) (U : Uniforms K) (gin : GSIn K) :
    (gsRun sqrt U gin).base =
      ⟨((gsRun sqrt U gin).col : K) / U.cols,
        1 - (((gsRun sqrt U gin).row : K) + 1) / U.rows⟩ := by
  norm_num [gsRun]

theorem gsRun_step (sqrt : K → K) (U : Uniforms K) (gin : GSIn K) :
    (gsRun sqrt U gin).step = ⟨1 / U.cols, 1 / U.rows⟩ := by
  norm_num [gsRun]

/-- C3: for every character code with `code ≥ 32` and `code - 32 < cols * rows`
(`cols`, `rows` positive), the geometry shader computes `index = code - 32`,
`column = index mod cols`, `row = index div cols`, the UV base
`(column / cols, (rows - 1 - row) / rows)` (the row counted from the bottom of the
atlas) and the cell size `(1 / cols, 1 / rows)`. -/
theorem atlas_uv_base (sqrt : K → K) (U : Uniforms K) (gin : GSIn K) (cols rows : Nat)
    (code : Int) (_hc : 0 < cols) (hr : 0 < rows) (hU : U.cols = cols) (hR : U.rows = rows)
    (hch : gin.ch = code) (h32 : 32 ≤ code) (_hlt : code - 32 < cols * rows) :
    (gsRun sqrt U gin).i = code - 32 ∧
    (gsRun sqrt U gin).col = (code - 32) % cols ∧
    (gsRun sqrt U gin).row = (code - 32) / cols ∧
    (gsRun sqrt U gin).base =
      ⟨((gsRun sqrt U gin).col : K) / cols,
        ((rows : K) - 1 - ((gsRun sqrt U gin).row : K)) / rows⟩ ∧
    (gsRun sqrt U gin).step = ⟨1 / (cols : K), 1 / (rows : K)⟩ := by
  refine ⟨gsRun_i sqrt U gin code hch, gsRun_col sqrt U gin cols code hU hch h32,
    gsRun_row sqrt U gin cols code hU hch h32, ?_, ?_⟩
  · rw [gsRun_base, hU, hR]
    have : (rows : K) ≠ 0 := by positivity
    congr 1
    field_simp
    ring
  · rw [gsRun_step, hU, hR]

theorem atlas_cell_bounds (sqrt : K → K) (U : Uniforms K) (gin : GSIn K) (cols rows : Nat)
    (code : Int) (hc : 0 < cols) (hU : U.cols = cols)
    (hch : gin.ch = code) (h32 : 32 ≤ code) (hlt : code - 32 < cols * rows) :
    (gsRun sqrt U gin).col + (gsRun sqrt U gin).row * cols = code - 32 ∧
    0 ≤ (gsRun sqrt U gin).col ∧ (gsRun sqrt U gin).col < cols ∧
    0 ≤ (gsRun sqrt U gin).row ∧ (gsRun sqrt U gin).row < rows := by
  rw [gsRun_col sqrt U gin cols code hU hch h32, gsRun_row sqrt U gin cols code hU hch h32]
  have hc0 : (0 : Int) < cols := by exact_mod_cast hc
  refine ⟨?_, Int.emod_nonneg _ (ne_of_gt hc0), Int.emod_lt_of_pos _ hc0,
    Int.ediv_nonneg (by omega) (le_of_lt hc0), Int.ediv_lt_of_lt_mul hc0 ?_⟩
  · have := Int.emod_add_ediv (code - 32) cols
    linarith [mul_comm ((code - 32) / (cols : Int)) cols]
  · rw [mul_comm]; exact hlt

theorem atlas_cell_injective (sqrt : K → K) (U : Uniforms K) (gin gin2 : GSIn K) (cols : Nat)
    (code code2 : Int) (hU : U.cols = cols)
    (hch : gin.ch = code) (h32 : 32 ≤ code) (hch2 : gin2.ch = code2) (h322 : 32 ≤ code2)
    (hcol : (gsRun sqrt U gin).col = (gsRun sqrt U gin2).col)
    (hrow : (gsRun sqrt U gin).row = (gsRun sqrt U gin2).row) : code = code2 := by
  rw [gsRun_col sqrt U gin cols code hU hch h32,
    gsRun_col sqrt U gin2 cols code2 hU hch2 h322] at hcol
  rw [gsRun_row sqrt U gin cols code hU hch h32,
    gsRun_row sqrt U gin2 cols code2 hU hch2 h322] at hrow
  have h1 := Int.emod_add_ediv (code - 32) cols
  have h2 := Int.emod_add_ediv (code2 - 32) cols
  rw [hcol, hrow] at h1
  omega

/-- C5: for every valid code in `[32, 32 + cols * rows)` with `cols > 0`, the column
and row computed by the geometry shader satisfy `column + row * cols = code - 32`,
`0 ≤ column < cols` and `0 ≤ row < rows`, and two distinct valid codes get distinct
`(column, row)` cells. -/
theorem atlas_index_bijection (sqrt : K → K) (U : Uniforms K) (gin gin2 : GSIn K)
    (cols rows : Nat) (code code2 : Int) (hc : 0 < cols) (hU : U.cols = cols)
    (hch : gin.ch = code) (h32 : 32 ≤ code) (hlt : code - 32 < cols * rows)
    (hch2 : gin2.ch = code2) (h322 : 32 ≤ code2) (_hlt2 : code2 - 32 < cols * rows) :
    (gsRun sqrt U gin).col + (gsRun sqrt U gin).row * cols = code - 32 ∧
    0 ≤ (gsRun sqrt U gin).col ∧ (gsRun sqrt U gin).col < cols ∧
    0 ≤ (gsRun sqrt U gin).row ∧ (gsRun sqrt U gin).row < rows ∧
    (code ≠ code2 →
      ((gsRun sqrt U gin).col, (gsRun sqrt U gin).row)
        ≠ ((gsRun sqrt U gin2).col, (gsRun sqrt U gin2).row)) := by
  obtain ⟨h1, h2, h3, h4, h5⟩ := atlas_cell_bounds sqrt U gin cols rows code hc hU hch h32 hlt
  refine ⟨h1, h2, h3, h4, h5, ?_⟩
  intro hne heq
  rw [Prod.mk.injEq] at heq
  exact hne (atlas_cell_injective sqrt U gin gin2 cols code code2 hU hch h32 hch2 h322
    heq.1 heq.2)

/-- C4: for every valid code in `[32, 32 + cols * rows)`, the rectangle
`(u0, v0, u1, v1) = (base.x, base.y, base.x + 1 / cols, base.y + 1 / rows)` computed
by the geometry shader satisfies `0 ≤ u0 < u1 ≤ 1` and `0 ≤ v0 < v1 ≤ 1`, and for two
distinct valid codes no point lies in the interior of both rectangles. -/
theorem atlas_uv_rect (sqrt : K → K) (U : Uniforms K) (gin gin2 : GSIn K)
    (cols rows : Nat) (code code2 : Int) (hc : 0 < cols) (hr : 0 < rows)
    (hU : U.cols = cols) (hR : U.rows = rows)
    (hch : gin.ch = code) (h32 : 32 ≤ code) (hlt : code - 32 < cols * rows)
    (hch2 : gin2.ch = code2) (h322 : 32 ≤ code2) (hlt2 : code2 - 32 < cols * rows) :
    (0 ≤ (gsRun sqrt U gin).base.x ∧
      (gsRun sqrt U gin).base.x < ((gsRun sqrt U gin).base + (gsRun sqrt U gin).step).x ∧
      ((gsRun sqrt U gin).base + (gsRun sqrt U gin).step).x ≤ 1 ∧
      0 ≤ (gsRun sqrt U gin).base.y ∧
      (gsRun sqrt U gin).base.y < ((gsRun sqrt U gin).base + (gsRun sqrt U gin).step).y ∧
      ((gsRun sqrt U gin).base + (gsRun sqrt U gin).step).y ≤ 1) ∧
    ((gsRun sqrt U gin).base + (gsRun sqrt U gin).step).x = (gsRun sqrt U gin).base.x + 1 / cols ∧
    ((gsRun sqrt U gin).base + (gsRun sqrt U gin).step).y = (gsRun sqrt U gin).base.y + 1 / rows ∧
    (code ≠ code2 → ¬ ∃ u v : K,
      ((gsRun sqrt U gin).base.x < u ∧ u < ((gsRun sqrt U gin).base + (gsRun sqrt U gin).step).x ∧
        (gsRun sqrt U gin).base.y < v ∧
        v < ((gsRun sqrt U gin).base + (gsRun sqrt U gin).step).y) ∧
      ((gsRun sqrt U gin2).base.x < u ∧
        u < ((gsRun sqrt U gin2).base + (gsRun sqrt U gin2).step).x ∧
        (gsRun sqrt U gin2).base.y < v ∧
        v < ((gsRun sqrt U gin2).base + (gsRun sqrt U gin2).step).y)) := by
  obtain ⟨-, a2, a3, a4, a5⟩ := atlas_cell_bounds sqrt U gin cols rows code hc hU hch h32 hlt
  obtain ⟨-, b2, b3, b4, b5⟩ :=
    atlas_cell_bounds sqrt U gin2 cols rows code2 hc hU hch2 h322 hlt2
  have hinj := atlas_cell_injective sqrt U gin gin2 cols code code2 hU hch h32 hch2 h322
  have hx : ∀ g : GSIn K, ((gsRun sqrt U g).base + (gsRun sqrt U g).step).x
      = (gsRun sqrt U g).base.x + 1 / cols := by
    intro g; rw [gsRun_step, hU]; rfl
  have hy : ∀ g : GSIn K, ((gsRun sqrt U g).base + (gsRun sqrt U g).step).y
      = (gsRun sqrt U g).base.y + 1 / rows := by
    intro g; rw [gsRun_step, hR]; rfl
  have bx : ∀ g : GSIn K, (gsRun sqrt U g).base.x = ((gsRun sqrt U g).col : K) / cols := by
    intro g; rw [gsRun_base, hU]
  have by_ : ∀ g : GSIn K, (gsRun sqrt U g).base.y
      = 1 - (((gsRun sqrt U g).row : K) + 1) / rows := by
    intro g; rw [gsRun_base, hR]
  simp only [hx, hy, bx, by_]
  generalize (gsRun sqrt U gin).col = c1 at *
  generalize (gsRun sqrt U gin).row = r1 at *
  generalize (gsRun sqrt U gin2).col = c2 at *
  generalize (gsRun sqrt U gin2).row = r2 at *
  have hcK : (0 : K) < cols := by exact_mod_cast hc
  have hrK : (0 : K) < rows := by exact_mod_cast hr
  have e1 : (c1 : K) / cols + 1 / cols = ((c1 : K) + 1) / cols := by ring
  have e2 : (c2 : K) / cols + 1 / cols = ((c2 : K) + 1) / cols := by ring
  have f1 : 1 - ((r1 : K) + 1) / rows + 1 / rows = 1 - (r1 : K) / rows := by ring
  have f2 : 1 - ((r2 : K) + 1) / rows + 1 / rows = 1 - (r2 : K) / rows := by ring
  have a2K : (0 : K) ≤ c1 := by exact_mod_cast a2
  have a3K : (c1 : K) + 1 ≤ cols := by exact_mod_cast Int.add_one_le_of_lt a3
  have a4K : (0 : K) ≤ r1 := by exact_mod_cast a4
  have a5K : (r1 : K) + 1 ≤ rows := by exact_mod_cast Int.add_one_le_of_lt a5
  refine ⟨⟨?_, ?_, ?_, ?_, ?_, ?_⟩, trivial, trivial, ?_⟩
  · positivity
  · rw [e1]; exact div_lt_div_of_pos_right (by linarith) hcK
  · rw [e1, div_le_one hcK]; exact a3K
  · rw [sub_nonneg, div_le_one hrK]; exact a5K
  · rw [f1]; have := div_lt_div_of_pos_right (show (r1 : K) < r1 + 1 by linarith) hrK
    linarith
  · rw [f1]; have : (0 : K) ≤ (r1 : K) / rows := by positivity
    linarith
  · rintro hne ⟨u, v, ⟨u1, u2, v1, v2⟩, ⟨u3, u4, v3, v4⟩⟩
    rw [e1] at u2
    rw [e2] at u4
    rw [f1] at v2
    rw [f2] at v4
    have hcc : (c1 : K) < c2 + 1 := by
      have := lt_trans u1 u4
      exact (div_lt_div_iff_of_pos_right hcK).mp this
    have hcc2 : (c2 : K) < c1 + 1 := by
      have := lt_trans u3 u2
      exact (div_lt_div_iff_of_pos_right hcK).mp this
    have hrr : (r2 : K) < r1 + 1 := by
      have h := (div_lt_div_iff_of_pos_right hrK).mp (show (r2 : K) / rows < ((r1 : K) + 1) / rows by linarith)
      exact h
    have hrr2 : (r1 : K) < r2 + 1 := by
      have h := (div_lt_div_iff_of_pos_right hrK).mp (show (r1 : K) / rows < ((r2 : K) + 1) / rows by linarith)
      exact h
    have i1 : c1 < c2 + 1 := by exact_mod_cast hcc
    have i2 : c2 < c1 + 1 := by exact_mod_cast hcc2
    have i3 : r2 < r1 + 1 := by exact_mod_cast hrr
    have i4 : r1 < r2 + 1 := by exact_mod_cast hrr2
    exact hne (hinj (by omega) (by omega))

end Atlas

/-! ## Billboard expansion -/

section Billboard

variable {K : Type} [LinearOrderedField K] [FloorRing K]

theorem gsRun_scale (sqrt : K → K) (U : Uniforms K) (gin : GSIn K) :
    (gsRun sqrt U gin).scale = clamp (5 / (gsRun sqrt U gin).dist) (9 / 20) (13 / 10) := by
  norm_num [gsRun]

theorem gsRun_right (sqrt : K → K) (U : Uniforms K) (gin : GSIn K) :
    (gsRun sqrt U gin).right =
      (⟨U.view 0 0, U.view 1 0, U.view 2 0⟩ : Vec3 K) * U.size * (gsRun sqrt U gin).scale := rfl

theorem gsRun_up (sqrt : K → K) (U : Uniforms K) (gin : GSIn K) :
    (gsRun sqrt U gin).up =
      (⟨U.view 0 1, U.view 1 1, U.view 2 1⟩ : Vec3 K) * U.size * (gsRun sqrt U gin).scale := rfl

/-- C7: for every positive distance `d` between camera position and anchor, the
billboard scale `clamp(5.0 / d, 0.45, 1.3)` lies in `[0.45, 1.3]`, equals `1.3` for
`d ≤ 5 / 1.3`, equals `0.45` for `d ≥ 5 / 0.45`, equals `5 / d` in between, and is
non-increasing in `d`. -/
theorem scale_clamped (sqrt : K → K) (U U2 : Uniforms K) (gin gin2 : GSIn K) (d d2 : K)
    (hdist : (gsRun sqrt U gin).dist = d) (hdist2 : (gsRun sqrt U2 gin2).dist = d2)
    (hd : 0 < d) (hle : d ≤ d2) :
    0.45 ≤ (gsRun sqrt U gin).scale ∧ (gsRun sqrt U gin).scale ≤ 1.3 ∧
    (d ≤ 5 / 1.3 → (gsRun sqrt U gin).scale = 1.3) ∧
    (5 / 0.45 ≤ d → (gsRun sqrt U gin).scale = 0.45) ∧
    (5 / 1.3 ≤ d → d ≤ 5 / 0.45 → (gsRun sqrt U gin).scale = 5 / d) ∧
    (gsRun sqrt U2 gin2).scale ≤ (gsRun sqrt U gin).scale := by
  rw [gsRun_scale, gsRun_scale, hdist, hdist2]
  have hd2 : 0 < d2 := lt_of_lt_of_le hd hle
  have e1 : (0.45 : K) = 9 / 20 := by norm_num
  have e2 : (1.3 : K) = 13 / 10 := by norm_num
  have e3 : (5 : K) / (13 / 10) = 50 / 13 := by norm_num
  have e4 : (5 : K) / (9 / 20) = 100 / 9 := by norm_num
  rw [e1, e2, e3, e4]
  unfold clamp
  refine ⟨?_, ?_, ?_, ?_, ?_, ?_⟩
  · exact le_min (le_max_right _ _) (by norm_num)
  · exact min_le_right _ _
  · intro h
    have : (13 / 10 : K) ≤ 5 / d := by rw [le_div_iff₀ hd]; linarith
    exact min_eq_right (le_trans this (le_max_left _ _))
  · intro h
    have : 5 / d ≤ (9 / 20 : K) := by rw [div_le_iff₀ hd]; linarith
    rw [max_eq_right this]; exact min_eq_left (by norm_num)
  · intro h1 h2
    have a : 5 / d ≤ (13 / 10 : K) := by rw [div_le_iff₀ hd]; linarith
    have b : (9 / 20 : K) ≤ 5 / d := by rw [le_div_iff₀ hd]; linarith
    rw [max_eq_left b]; exact min_eq_left a
  · have : 5 / d2 ≤ 5 / d := div_le_div_of_nonneg_left (by norm_num) hd hle
    exact min_le_min (max_le_max this le_rfl) le_rfl

/-- C8: for every view transform whose 3x3 rotation part is orthonormal, and every
size and scale, the right and up vectors the geometry shader derives
(`vec3(view[0][0], view[1][0], view[2][0])` and `vec3(view[0][1], view[1][1],
view[2][1])`, multiplied by size and scale) are orthogonal to each other and each
orthogonal to the third such row `(view[0][2], view[1][2], view[2][2])`, the
camera's forward axis up to sign (any scalar multiple `s` of it). -/
theorem billboard_orthogonal (sqrt : K → K) (U : Uniforms K) (gin : GSIn K)
    (h : rotationOrthonormal U.view) :
    (gsRun sqrt U gin).right =
      (⟨U.view 0 0, U.view 1 0, U.view 2 0⟩ : Vec3 K) * U.size * (gsRun sqrt U gin).scale ∧
    (gsRun sqrt U gin).up =
      (⟨U.view 0 1, U.view 1 1, U.view 2 1⟩ : Vec3 K) * U.size * (gsRun sqrt U gin).scale ∧
    dot (gsRun sqrt U gin).right (gsRun sqrt U gin).up = 0 ∧
    ∀ s : K,
      dot (gsRun sqrt U gin).right ((⟨U.view 0 2, U.view 1 2, U.view 2 2⟩ : Vec3 K) * s) = 0 ∧
      dot (gsRun sqrt U gin).up ((⟨U.view 0 2, U.view 1 2, U.view 2 2⟩ : Vec3 K) * s) = 0 := by
  obtain ⟨h01, h02, h12⟩ := rotationOrthonormal_rows U.view h
  refine ⟨rfl, rfl, ?_, fun s => ⟨?_, ?_⟩⟩
  · rw [gsRun_right, gsRun_up]
    simp only [vec3_mul_def, dot]
    linear_combination (U.size * (gsRun sqrt U gin).scale) ^ 2 * h01
  · rw [gsRun_right]
    simp only [vec3_mul_def, dot]
    linear_combination (U.size * (gsRun sqrt U gin).scale * s) * h02
  · rw [gsRun_up]
    simp only [vec3_mul_def, dot]
    linear_combination (U.size * (gsRun sqrt U gin).scale * s) * h12

theorem gsRun_center (sqrt : K → K) (U : Uniforms K) (a : VSIn K) :
    (gsRun sqrt U (vsMain a)).center = a.aCenter := rfl

theorem gsRun_offset (sqrt : K → K) (U : Uniforms K) (a : VSIn K) :
    (gsRun sqrt U (vsMain a)).offset = a.aOffset := rfl

theorem gsRun_shift (sqrt : K → K) (U : Uniforms K) (gin : GSIn K) :
    (gsRun sqrt U gin).shift = (gsRun sqrt U gin).right * gin.off := rfl

theorem gsRun_ps (sqrt : K → K) (U : Uniforms K) (gin : GSIn K) :
    (gsRun sqrt U gin).ps =
      [vec4 ((gsRun sqrt U gin).center + (gsRun sqrt U gin).shift
          - (gsRun sqrt U gin).right * (1 / 2 : K) - (gsRun sqrt U gin).up * (1 / 2 : K)) 1,
        vec4 ((gsRun sqrt U gin).center + (gsRun sqrt U gin).shift
          + (gsRun sqrt U gin).right * (1 / 2 : K) - (gsRun sqrt U gin).up * (1 / 2 : K)) 1,
        vec4 ((gsRun sqrt U gin).center + (gsRun sqrt U gin).shift
          - (gsRun sqrt U gin).right * (1 / 2 : K) + (gsRun sqrt U gin).up * (1 / 2 : K)) 1,
        vec4 ((gsRun sqrt U gin).center + (gsRun sqrt U gin).shift
          + (gsRun sqrt U gin).right * (1 / 2 : K) + (gsRun sqrt U gin).up * (1 / 2 : K)) 1] := by
  norm_num [gsRun]

theorem gsRun_emitted (sqrt : K → K) (U : Uniforms K) (gin : GSIn K) :
    (gsRun sqrt U gin).emitted =
      ((gsRun sqrt U gin).ps.map (U.projection.mul U.view).mulVec).zipWith Vertex.mk
        [(gsRun sqrt U gin).base,
          (gsRun sqrt U gin).base + ⟨(gsRun sqrt U gin).step.x, 0⟩,
          (gsRun sqrt U gin).base + ⟨0, (gsRun sqrt U gin).step.y⟩,
          (gsRun sqrt U gin).base + (gsRun sqrt U gin).step] := rfl

/-- C9: for every character record `(anchor, code, offsetUnits)`, with `right` and
`up` the scaled basis vectors and `center = anchor + right * offsetUnits`, the
geometry shader emits exactly four vertices, in the order bottom-left,
bottom-right, top-left, top-right, with pre-projection positions
`center ∓ right/2 ∓ up/2` and UVs `base`, `base + (stepU, 0)`, `base + (0, stepV)`,
`base + (stepU, stepV)` for `step = (1/cols, 1/rows)`, each position emitted as
`projection * view * (position, 1)`; the four corners average to `center` and form
a parallelogram with edge vectors `right` and `up`. -/
theorem quad_expansion (sqrt : K → K) (U : Uniforms K) (a : VSIn K) (r : GSRun K)
    (center : Vec3 K) (hr : gsRun sqrt U (vsMain a) = r)
    (hcenter : center = a.aCenter + r.right * a.aOffset) :
    gsMain sqrt U (vsMain a) =
      [⟨(U.projection.mul U.view).mulVec
          (vec4 (center - r.right * (1 / 2 : K) - r.up * (1 / 2 : K)) 1), r.base⟩,
        ⟨(U.projection.mul U.view).mulVec
          (vec4 (center + r.right * (1 / 2 : K) - r.up * (1 / 2 : K)) 1),
          r.base + ⟨1 / U.cols, 0⟩⟩,
        ⟨(U.projection.mul U.view).mulVec
          (vec4 (center - r.right * (1 / 2 : K) + r.up * (1 / 2 : K)) 1),
          r.base + ⟨0, 1 / U.rows⟩⟩,
        ⟨(U.projection.mul U.view).mulVec
          (vec4 (center + r.right * (1 / 2 : K) + r.up * (1 / 2 : K)) 1),
          r.base + ⟨1 / U.cols, 1 / U.rows⟩⟩] ∧
    (gsMain sqrt U (vsMain a)).length = 4 ∧
    r.ps.map Vec4.xyz =
      [center - r.right * (1 / 2 : K) - r.up * (1 / 2 : K),
        center + r.right * (1 / 2 : K) - r.up * (1 / 2 : K),
        center - r.right * (1 / 2 : K) + r.up * (1 / 2 : K),
        center + r.right * (1 / 2 : K) + r.up * (1 / 2 : K)] ∧
    (∀ p : Vec4 K,
      (U.projection.mul U.view).mulVec p = U.projection.mulVec (U.view.mulVec p)) ∧
    ((center - r.right * (1 / 2 : K) - r.up * (1 / 2 : K))
        + (center + r.right * (1 / 2 : K) - r.up * (1 / 2 : K))
        + (center - r.right * (1 / 2 : K) + r.up * (1 / 2 : K))
        + (center + r.right * (1 / 2 : K) + r.up * (1 / 2 : K))) * (1 / 4 : K) = center ∧
    (center + r.right * (1 / 2 : K) - r.up * (1 / 2 : K))
        - (center - r.right * (1 / 2 : K) - r.up * (1 / 2 : K)) = r.right ∧
    (center + r.right * (1 / 2 : K) + r.up * (1 / 2 : K))
        - (center - r.right * (1 / 2 : K) + r.up * (1 / 2 : K)) = r.right ∧
    (center - r.right * (1 / 2 : K) + r.up * (1 / 2 : K))
        - (center - r.right * (1 / 2 : K) - r.up * (1 / 2 : K)) = r.up ∧
    (center + r.right * (1 / 2 : K) + r.up * (1 / 2 : K))
        - (center + r.right * (1 / 2 : K) - r.up * (1 / 2 : K)) = r.up := by
  subst hr hcenter
  have hps := gsRun_ps sqrt U (vsMain a)
  have hc : (gsRun sqrt U (vsMain a)).center + (gsRun sqrt U (vsMain a)).shift
      = a.aCenter + (gsRun sqrt U (vsMain a)).right * a.aOffset := rfl
  rw [hc] at hps
  refine ⟨?_, rfl, ?_, fun p => mat4_mul_mulVec _ _ p, ?_, ?_, ?_, ?_, ?_⟩
  · rw [gsMain, gsRun_emitted, hps, gsRun_step]
    simp [vec2_add_def]
  · rw [hps]; simp [xyz_vec4]
  all_goals
    refine Vec3.ext ?_ ?_ ?_ <;> simp only [vec3_add_def, vec3_sub_def, vec3_mul_def] <;> ring

theorem gsRun_basis_congr (sqrt : K → K) (U U2 : Uniforms K) (g1 g2 : GSIn K)
    (hv : U.view = U2.view) (hs : U.size = U2.size) (hc : U.camPos = U2.camPos)
    (h : g1.gl_Position.xyz = g2.gl_Position.xyz) :
    (gsRun sqrt U g1).dist = (gsRun sqrt U2 g2).dist ∧
    (gsRun sqrt U g1).scale = (gsRun sqrt U2 g2).scale ∧
    (gsRun sqrt U g1).right = (gsRun sqrt U2 g2).right ∧
    (gsRun sqrt U g1).up = (gsRun sqrt U2 g2).up := by
  simp [gsRun, h, hv, hs, hc]

theorem drawPoint_makeLabelVertices (sqrt : K → K) (U : Uniforms K) (L : Label K)
    (hn : L.text.length < 2147483648) (i : Nat) (hi : i < L.text.length) :
    drawPoint sqrt U (makeLabelVertices L) i =
      gsRun sqrt U (vsMain
        { aCenter := L.center
          aChar := ((L.text.getD i 0 : Int) : K)
          aOffset := ((i : K) - ((L.text.length : K) - 1) / 2) * 0.6 }) := by
  rw [drawPoint, fetchVertex_makeLabelVertices L hn i hi]

/-- C10: in the geometry shader the distance, the scale and the scaled right/up
vectors depend only on the view transform, the size, the camera position and the
record's anchor, not on its character code or offset (nor on the other uniforms);
so any two records of one label (of fewer than `2^31` characters, the labels
`makeLabelVertices` packs in full) give quads with the same right and up edge
vectors, and for consecutive characters `i`, `i + 1` the quad centres (and
all four corners) differ by exactly `0.6 * right`, which is `0.6` of the quad's own
width: the bottom-left corner of quad `i + 1` lies `0.6` of the way along the
bottom edge of quad `i`, and the point `0.3 * right` past the centre of quad `i`
is `0.3 * right` before the centre of quad `i + 1`, inside both quads. -/
theorem uniform_glyph_spacing (sqrt : K → K) (U : Uniforms K) :
    (∀ (U2 : Uniforms K) (g1 g2 : GSIn K),
      U.view = U2.view → U.size = U2.size → U.camPos = U2.camPos →
      g1.gl_Position.xyz = g2.gl_Position.xyz →
      (gsRun sqrt U g1).dist = (gsRun sqrt U2 g2).dist ∧
      (gsRun sqrt U g1).scale = (gsRun sqrt U2 g2).scale ∧
      (gsRun sqrt U g1).right = (gsRun sqrt U2 g2).right ∧
      (gsRun sqrt U g1).up = (gsRun sqrt U2 g2).up) ∧
    (∀ (L : Label K) (i j : Nat), L.text.length < 2147483648 →
      i < L.text.length → j < L.text.length →
      (drawPoint sqrt U (makeLabelVertices L) i).right
        = (drawPoint sqrt U (makeLabelVertices L) j).right ∧
      (drawPoint sqrt U (makeLabelVertices L) i).up
        = (drawPoint sqrt U (makeLabelVertices L) j).up ∧
      ∃ p1 p2 p3 p4 : Vec4 K,
        (drawPoint sqrt U (makeLabelVertices L) i).ps = [p1, p2, p3, p4] ∧
        p2.xyz - p1.xyz = (drawPoint sqrt U (makeLabelVertices L) j).right ∧
        p4.xyz - p3.xyz = (drawPoint sqrt U (makeLabelVertices L) j).right ∧
        p3.xyz - p1.xyz = (drawPoint sqrt U (makeLabelVertices L) j).up ∧
        p4.xyz - p2.xyz = (drawPoint sqrt U (makeLabelVertices L) j).up) ∧
    (∀ (L : Label K) (i : Nat), L.text.length < 2147483648 → i + 1 < L.text.length →
      ((drawPoint sqrt U (makeLabelVertices L) (i + 1)).center
          + (drawPoint sqrt U (makeLabelVertices L) (i + 1)).shift)
        - ((drawPoint sqrt U (makeLabelVertices L) i).center
          + (drawPoint sqrt U (makeLabelVertices L) i).shift)
        = (drawPoint sqrt U (makeLabelVertices L) i).right * (0.6 : K) ∧
      (drawPoint sqrt U (makeLabelVertices L) (i + 1)).ps.map Vec4.xyz
        = (drawPoint sqrt U (makeLabelVertices L) i).ps.map
            (fun p => p.xyz + (drawPoint sqrt U (makeLabelVertices L) i).right * (0.6 : K)) ∧
      (∃ p1 p2 p3 p4 q1 q2 q3 q4 : Vec4 K,
        (drawPoint sqrt U (makeLabelVertices L) i).ps = [p1, p2, p3, p4] ∧
        (drawPoint sqrt U (makeLabelVertices L) (i + 1)).ps = [q1, q2, q3, q4] ∧
        q1.xyz = p1.xyz + (p2.xyz - p1.xyz) * (0.6 : K) ∧
        q3.xyz = p3.xyz + (p4.xyz - p3.xyz) * (0.6 : K)) ∧
      ((drawPoint sqrt U (makeLabelVertices L) i).center
          + (drawPoint sqrt U (makeLabelVertices L) i).shift)
          + (drawPoint sqrt U (makeLabelVertices L) i).right * (0.3 : K)
        = ((drawPoint sqrt U (makeLabelVertices L) (i + 1)).center
          + (drawPoint sqrt U (makeLabelVertices L) (i + 1)).shift)
          - (drawPoint sqrt U (makeLabelVertices L) (i + 1)).right * (0.3 : K) ∧
      (0.3 : K) < 1 / 2) := by
  refine ⟨fun U2 g1 g2 => gsRun_basis_congr sqrt U U2 g1 g2, ?_, ?_⟩
  · intro L i j hn hi hj
    rw [drawPoint_makeLabelVertices sqrt U L hn i hi,
      drawPoint_makeLabelVertices sqrt U L hn j hj]
    obtain ⟨-, -, hR, hU⟩ := gsRun_basis_congr sqrt U U
      (vsMain { aCenter := L.center, aChar := ((L.text.getD i 0 : Int) : K),
                aOffset := ((i : K) - ((L.text.length : K) - 1) / 2) * 0.6 })
      (vsMain { aCenter := L.center, aChar := ((L.text.getD j 0 : Int) : K),
                aOffset := ((j : K) - ((L.text.length : K) - 1) / 2) * 0.6 }) rfl rfl rfl rfl
    refine ⟨hR, hU, _, _, _, _, gsRun_ps _ _ _, ?_, ?_, ?_, ?_⟩
    all_goals
      first | rw [← hR] | rw [← hU]
      refine Vec3.ext ?_ ?_ ?_ <;>
        simp only [xyz_vec4, vec3_add_def, vec3_sub_def, vec3_mul_def] <;> ring
  · intro L i hn hi
    rw [drawPoint_makeLabelVertices sqrt U L hn i (by omega),
      drawPoint_makeLabelVertices sqrt U L hn (i + 1) hi]
    obtain ⟨-, -, hR, hU⟩ := gsRun_basis_congr sqrt U U
      (vsMain { aCenter := L.center, aChar := ((L.text.getD (i + 1) 0 : Int) : K),
                aOffset := (((i + 1 : Nat) : K) - ((L.text.length : K) - 1) / 2) * 0.6 })
      (vsMain { aCenter := L.center, aChar := ((L.text.getD i 0 : Int) : K),
                aOffset := ((i : K) - ((L.text.length : K) - 1) / 2) * 0.6 }) rfl rfl rfl rfl
    have e6 : (0.6 : K) = 3 / 5 := by norm_num
    have e3 : (0.3 : K) = 3 / 10 := by norm_num
    refine ⟨?_, ?_, ⟨_, _, _, _, _, _, _, _, gsRun_ps _ _ _, gsRun_ps _ _ _, ?_, ?_⟩, ?_, ?_⟩
    · rw [gsRun_shift, gsRun_shift, gsRun_center, gsRun_center, hR]
      simp only [vsMain, vec3_add_def, vec3_sub_def, vec3_mul_def, Vec3.mk.injEq, e6]
      push_cast
      refine ⟨?_, ?_, ?_⟩ <;> ring
    · rw [gsRun_ps, gsRun_ps, gsRun_shift, gsRun_shift, gsRun_center, gsRun_center, hR, hU]
      simp only [vsMain, List.map_cons, List.map_nil, xyz_vec4, vec3_add_def, vec3_sub_def,
        vec3_mul_def, e6, List.cons.injEq, Vec3.mk.injEq, and_true]
      push_cast
      refine ⟨⟨?_, ?_, ?_⟩, ⟨?_, ?_, ?_⟩, ⟨?_, ?_, ?_⟩, ⟨?_, ?_, ?_⟩⟩ <;> ring
    · rw [gsRun_shift, gsRun_shift, gsRun_center, gsRun_center, hR, hU]
      simp only [vsMain, xyz_vec4, vec3_add_def, vec3_sub_def, vec3_mul_def, Vec3.mk.injEq,
        e6]
      push_cast
      refine ⟨?_, ?_, ?_⟩ <;> ring
    · rw [gsRun_shift, gsRun_shift, gsRun_center, gsRun_center, hR, hU]
      simp only [vsMain, xyz_vec4, vec3_add_def, vec3_sub_def, vec3_mul_def, Vec3.mk.injEq,
        e6]
      push_cast
      refine ⟨?_, ?_, ?_⟩ <;> ring
    · rw [gsRun_shift, gsRun_shift, gsRun_center, gsRun_center, hR]
      simp only [vsMain, vec3_add_def, vec3_sub_def, vec3_mul_def, Vec3.mk.injEq, e6, e3]
      push_cast
      refine ⟨?_, ?_, ?_⟩ <;> ring
    · norm_num

end Billboard
/-! ## The scene of `main`: the 16 x 6 atlas and the initial camera -/

section Scene

theorem gsRun_atlas_A {K : Type} [LinearOrderedField K] [FloorRing K]
    (sqrt : K → K) (U : Uniforms K) (gin : GSIn K)
    (hU : U.cols = 16) (hR : U.rows = 6) (hch : gin.ch = 65) :
    (gsRun sqrt U gin).i = 33 ∧ (gsRun sqrt U gin).col = 1 ∧ (gsRun sqrt U gin).row = 2 ∧
    (gsRun sqrt U gin).base = ⟨1 / 16, 1 / 2⟩ := by
  have hU2 : U.cols = ((16 : Nat) : K) := by rw [hU]; norm_num
  have hch2 : gin.ch = ((65 : Int) : K) := by rw [hch]; norm_num
  have hi := gsRun_i sqrt U gin 65 hch2
  have hc := gsRun_col sqrt U gin 16 65 hU2 hch2 (by decide)
  have hw := gsRun_row sqrt U gin 16 65 hU2 hch2 (by decide)
  have hc1 : (gsRun sqrt U gin).col = 1 := by rw [hc]; decide
  have hw1 : (gsRun sqrt U gin).row = 2 := by rw [hw]; decide
  refine ⟨by rw [hi]; decide, hc1, hw1, ?_⟩
  rw [gsRun_base, hc1, hw1, hU, hR]
  norm_num

theorem ratSqrt_25 : ratSqrt 25 = 5 := by
  have h : Nat.sqrt 25 = 5 := by norm_num [Nat.sqrt]
  simp [ratSqrt, h]

theorem ratSqrt_100 : ratSqrt 100 = 10 := by
  have h : Nat.sqrt 100 = 10 := by norm_num [Nat.sqrt]
  simp [ratSqrt, h]

theorem dist_glyphA : (gsRun ratSqrt sceneUniforms glyphA).dist = 5 := by
  norm_num [gsRun, length, sceneUniforms, glyphA, Vec4.xyz, vec3_sub_def, ratSqrt_25]

theorem dist_glyphB : (gsRun ratSqrt sceneUniforms glyphB).dist = 10 := by
  norm_num [gsRun, length, sceneUniforms, glyphB, Vec4.xyz, vec3_sub_def, ratSqrt_100]

theorem fetch_labelAB_A :
    (vsMain (fetchVertex (makeLabelVertices labelAB) 0)).ch = 65 := by
  rw [fetchVertex_makeLabelVertices labelAB (by simp [labelAB, asciiText_AB]) 0
    (by simp [labelAB, asciiText_AB])]
  simp [vsMain, labelAB, asciiText_AB]

theorem length_labelAB : labelAB.text.length < 2147483648 := by
  simp [labelAB, asciiText_AB]

/-- C1, as the claim states it, fails: for a text of `2^31` characters the length
converted to `int` is `-2^31`, the loop body never runs, and `makeLabelVertices`
returns the empty sequence instead of `5 * 2^31` numbers. -/
theorem makeLabelVertices_long_counterexample :
    labelLong.text.length = 2147483648 ∧
    makeLabelVertices labelLong = [] ∧
    (makeLabelVertices labelLong).length ≠ 5 * labelLong.text.length := by
  have hlen : labelLong.text.length = 2147483648 := by
    simp only [labelLong, List.length_replicate]
  have hc : castInt 2147483648 = -2147483648 := by decide
  have h0 : Int.toNat (-2147483648) = 0 := by decide
  have hv : makeLabelVertices labelLong = [] := by
    unfold makeLabelVertices
    rw [hlen, hc]
    simp only [h0, List.range_zero, List.foldl_nil]
  refine ⟨hlen, hv, ?_⟩
  rw [hv, hlen]
  decide

/-- C1 (amended), at the label "AB" anchored at `(0, 1, 0)`. -/
theorem makeLabelVertices_records_witness :
    (makeLabelVertices labelAB).length = 5 * labelAB.text.length ∧
    labelOffsets ({ text := asciiText "AB", center := ⟨0, 1, 0⟩ } : Label ℚ) = [-0.3, 0.3] :=
  have h := makeLabelVertices_records labelAB length_labelAB
  ⟨h.1, h.2.2.2.1 ⟨0, 1, 0⟩⟩

/-- C2, at the label "AB" anchored at `(0, 1, 0)`: two offsets, of sum `0`. -/
theorem makeLabelVertices_centered_witness :
    (labelOffsets labelAB).length = labelAB.text.length ∧ (labelOffsets labelAB).sum = 0 :=
  have h := makeLabelVertices_centered labelAB length_labelAB
  ⟨h.2.1, h.2.2.2⟩

/-- C3, at the scene of `main`: the character `A` in the 16 x 6 atlas. -/
theorem atlas_uv_base_witness :
    (gsRun ratSqrt sceneUniforms glyphA).i = 65 - 32 ∧
    (gsRun ratSqrt sceneUniforms glyphA).col = (65 - 32) % (16 : Nat) ∧
    (gsRun ratSqrt sceneUniforms glyphA).row = (65 - 32) / (16 : Nat) ∧
    (gsRun ratSqrt sceneUniforms glyphA).base =
      ⟨((gsRun ratSqrt sceneUniforms glyphA).col : ℚ) / (16 : Nat),
        (((6 : Nat) : ℚ) - 1 - ((gsRun ratSqrt sceneUniforms glyphA).row : ℚ)) / (6 : Nat)⟩ ∧
    (gsRun ratSqrt sceneUniforms glyphA).step = ⟨1 / ((16 : Nat) : ℚ), 1 / ((6 : Nat) : ℚ)⟩ :=
  atlas_uv_base ratSqrt sceneUniforms glyphA 16 6 65 (by decide) (by decide)
    (by norm_num [sceneUniforms]) (by norm_num [sceneUniforms]) (by norm_num [glyphA])
    (by decide) (by decide)

/-- C5, at the scene of `main`: `A` (index 33) sits in column 1, row 2, and `B` in
another cell. -/
theorem atlas_index_bijection_witness :
    (gsRun ratSqrt sceneUniforms glyphA).col
        + (gsRun ratSqrt sceneUniforms glyphA).row * (16 : Nat) = 65 - 32 ∧
    ((gsRun ratSqrt sceneUniforms glyphA).col, (gsRun ratSqrt sceneUniforms glyphA).row)
      ≠ ((gsRun ratSqrt sceneUniforms glyphB).col, (gsRun ratSqrt sceneUniforms glyphB).row) :=
  have h := atlas_index_bijection ratSqrt sceneUniforms glyphA glyphB 16 6 65 66 (by decide)
    (by norm_num [sceneUniforms]) (by norm_num [glyphA]) (by decide) (by decide)
    (by norm_num [glyphB]) (by decide) (by decide)
  ⟨h.1, h.2.2.2.2.2 (by decide)⟩

/-- C4, at the scene of `main`: the rectangle of `A` lies in the unit square and
shares no interior point with the rectangle of `B`. -/
theorem atlas_uv_rect_witness :
    (0 ≤ (gsRun ratSqrt sceneUniforms glyphA).base.x ∧
      (gsRun ratSqrt sceneUniforms glyphA).base.x
        < ((gsRun ratSqrt sceneUniforms glyphA).base
            + (gsRun ratSqrt sceneUniforms glyphA).step).x ∧
      ((gsRun ratSqrt sceneUniforms glyphA).base
          + (gsRun ratSqrt sceneUniforms glyphA).step).x ≤ 1 ∧
      0 ≤ (gsRun ratSqrt sceneUniforms glyphA).base.y ∧
      (gsRun ratSqrt sceneUniforms glyphA).base.y
        < ((gsRun ratSqrt sceneUniforms glyphA).base
            + (gsRun ratSqrt sceneUniforms glyphA).step).y ∧
      ((gsRun ratSqrt sceneUniforms glyphA).base
          + (gsRun ratSqrt sceneUniforms glyphA).step).y ≤ 1) :=
  (atlas_uv_rect ratSqrt sceneUniforms glyphA glyphB 16 6 65 66 (by decide) (by decide)
    (by norm_num [sceneUniforms]) (by norm_num [sceneUniforms])
    (by norm_num [glyphA]) (by decide) (by decide)
    (by norm_num [glyphB]) (by decide) (by decide)).1

/-- C6, as the claim states it, fails: for `A` in the 16 x 6 atlas, fetched from the
label "AB" at `(0, 1, 0)`, the geometry shader computes the UV base `(1/16, 1/2)`,
not `(1/16, 1 - 4/6)`. -/
theorem atlas_A_base_counterexample :
    (drawPoint ratSqrt sceneUniforms (makeLabelVertices labelAB) 0).base = ⟨1 / 16, 1 / 2⟩ ∧
    (drawPoint ratSqrt sceneUniforms (makeLabelVertices labelAB) 0).base
      ≠ ⟨1 / 16, 1 - 4 / 6⟩ := by
  have h := (gsRun_atlas_A ratSqrt sceneUniforms
    (vsMain (fetchVertex (makeLabelVertices labelAB) 0))
    (by norm_num [sceneUniforms]) (by norm_num [sceneUniforms]) fetch_labelAB_A).2.2.2
  rw [drawPoint, h]
  refine ⟨rfl, ?_⟩
  rw [Ne, Vec2.mk.injEq]
  norm_num

/-- C6 (amended): with the 16 x 6 atlas, the character `A` (code 65, index 33) maps
to column 1 and row 2 from the top, row-from-bottom `6 - 1 - 2 = 3`, and the UV base
computed by the geometry shader is `(1/16, 1 - 3/6) = (0.0625, 0.5)`. -/
theorem atlas_A_scenario {K : Type} [LinearOrderedField K] [FloorRing K]
    (sqrt : K → K) (U : Uniforms K) (gin : GSIn K)
    (hU : U.cols = 16) (hR : U.rows = 6) (hch : gin.ch = 65) :
    (gsRun sqrt U gin).i = 33 ∧ (gsRun sqrt U gin).col = 1 ∧ (gsRun sqrt U gin).row = 2 ∧
    6 - 1 - (gsRun sqrt U gin).row = 3 ∧
    (gsRun sqrt U gin).base = ⟨1 / 16, 1 - 3 / 6⟩ ∧
    (gsRun sqrt U gin).base = ⟨0.0625, 0.5⟩ := by
  obtain ⟨h1, h2, h3, h4⟩ := gsRun_atlas_A sqrt U gin hU hR hch
  refine ⟨h1, h2, h3, by rw [h3]; decide, ?_, ?_⟩
  · rw [h4]; norm_num
  · rw [h4]; norm_num

/-- C6 (amended), at the scene of `main`. -/
theorem atlas_A_scenario_witness :
    (gsRun ratSqrt sceneUniforms glyphA).col = 1 ∧ (gsRun ratSqrt sceneUniforms glyphA).row = 2 ∧
    (gsRun ratSqrt sceneUniforms glyphA).base = ⟨0.0625, 0.5⟩ :=
  have h := atlas_A_scenario ratSqrt sceneUniforms glyphA
    (by norm_num [sceneUniforms]) (by norm_num [sceneUniforms]) (by norm_num [glyphA])
  ⟨h.2.1, h.2.2.1, h.2.2.2.2.2⟩

/-- C7, at the scene of `main`: at distance 5 the scale is `5 / 5`, and at
distance 10 it is no larger. -/
theorem scale_clamped_witness :
    (gsRun ratSqrt sceneUniforms glyphA).scale = 5 / 5 ∧
    (gsRun ratSqrt sceneUniforms glyphB).scale ≤ (gsRun ratSqrt sceneUniforms glyphA).scale :=
  have h := scale_clamped ratSqrt sceneUniforms sceneUniforms glyphA glyphB 5 10
    dist_glyphA dist_glyphB (by norm_num) (by norm_num)
  ⟨h.2.2.2.2.1 (by norm_num) (by norm_num), h.2.2.2.2.2⟩

theorem rotationOrthonormal_cameraView : rotationOrthonormal sceneUniforms.view := by
  simp [rotationOrthonormal, dot, rotationColumn, sceneUniforms, cameraView, Matrix.vecHead,
    Matrix.vecTail]

/-- C8, at the scene of `main`: the view of the initial camera. -/
theorem billboard_orthogonal_witness :
    dot (gsRun ratSqrt sceneUniforms glyphA).right (gsRun ratSqrt sceneUniforms glyphA).up = 0 :=
  (billboard_orthogonal ratSqrt sceneUniforms glyphA rotationOrthonormal_cameraView).2.2.1

/-- C9, at the scene of `main`: four vertices are emitted for the first point of the
label "AB". -/
theorem quad_expansion_witness :
    (gsMain ratSqrt sceneUniforms (vsMain (fetchVertex (makeLabelVertices labelAB) 0))).length
      = 4 :=
  (quad_expansion ratSqrt sceneUniforms (fetchVertex (makeLabelVertices labelAB) 0) _ _
    rfl rfl).2.1

end Scene

end LabelBillboard
